import Mathlib

/-!
Verification development for the 2D skeletal animation core of the 2MB
repository (`src/classes/skeleton.py` and `src/classes/animation.py`).

The embedding has two layers, matching the two concerns of the source:

* a flat, name-indexed skeleton state over `ℚ` (the `Skeleton.parts`
  dictionary) together with the `AnimationController` state machine
  (`set_pose` / `update`).  None of this code performs trigonometry except
  the idle sway, whose `math.sin` is passed in as an explicit function
  parameter, so the whole layer is executable and decidable;
* a hierarchical body-part tree over `ℝ` for `BodyPart.update_transform`
  (world transform composition), with degree-trigonometry passed as
  function parameters and instantiated with `Real.cos`/`Real.sin` of the
  radian conversion in the theorems.

Python floats are modelled as exact rationals/reals; Python dicts are
modelled as insertion-ordered association lists.
-/

/-! ## Association-list dictionaries (Python `dict` with string keys) -/

/-- First-match lookup in an association list (`d.get(k)` / `d[k]`). -/
def alookup {α : Type} (k : String) : List (String × α) → Option α
  | [] => none
  | p :: ps => if p.1 = k then some p.2 else alookup k ps

/-- Rewrite the value stored under a key, leaving all other entries alone
(`d[k].field = ...` mutation through the dictionary). -/
def setPart {α : Type} (k : String) (f : α → α) : List (String × α) → List (String × α) :=
  List.map fun p => if p.1 = k then (p.1, f p.2) else p

/-- `d[k] = v`: overwrite an existing entry in place, otherwise append. -/
def dictInsert {α : Type} (k : String) (v : α) (l : List (String × α)) : List (String × α) :=
  if (alookup k l).isSome then l.map (fun p => if p.1 = k then (k, v) else p)
  else l ++ [(k, v)]

/-! ## Pose data (`animation.py`, class `Poses`)

A pose maps part names to `{'rotation': ..., 'position': ...}` entries;
both keys are optional (`apply_pose` tests `'rotation' in data`). -/

/-- One pose entry: `{'rotation': r, 'position': [x, y]}`, each key optional. -/
structure PoseEntry where
  rotation : Option ℚ
  position : Option (ℚ × ℚ)
deriving DecidableEq

/-- A pose: insertion-ordered mapping from part name to pose entry. -/
abbrev Pose := List (String × PoseEntry)

/-- Pose entry with both keys present (the shape of every built-in pose). -/
def pe (r x y : ℚ) : PoseEntry := ⟨some r, some (x, y)⟩

/-- `Poses.get_block()`. -/
def blockPose : Pose :=
  [("torso", pe 0 0 7), ("head", pe 0 0 (-70)),
   ("left_upper_arm", pe (-45) (-76) (-68)), ("left_forearm", pe (-155) (-36) 31),
   ("right_upper_arm", pe 45 76 (-68)), ("right_forearm", pe 155 36 31),
   ("left_thigh", pe 5 (-44) 88), ("left_shin", pe (-10) (-11) 72),
   ("right_thigh", pe (-5) 44 88), ("right_shin", pe 10 11 72)]

/-- `Poses.get_ready()`. -/
def readyPose : Pose :=
  [("torso", pe 0 0 2), ("head", pe 0 0 (-70)),
   ("left_upper_arm", pe (-50) (-76) (-69)), ("left_forearm", pe (-45) (-56) 35),
   ("right_upper_arm", pe 50 76 (-69)), ("right_forearm", pe 45 56 35),
   ("left_thigh", pe 0 (-39) 74), ("left_shin", pe 0 (-7) 90),
   ("right_thigh", pe 0 39 74), ("right_shin", pe 0 7 90)]

/-- `Poses.get_punch()`. -/
def punchPose : Pose :=
  [("torso", pe 0 0 7), ("head", pe 0 0 (-72)),
   ("left_upper_arm", pe (-25) (-76) (-68)), ("left_forearm", pe (-75) (-58) 27),
   ("right_upper_arm", pe (-5) 76 (-74)), ("right_forearm", pe 5 58 27),
   ("left_thigh", pe 17 (-42) 84), ("left_shin", pe (-18) (-4) 78),
   ("right_thigh", pe (-17) 42 84), ("right_shin", pe 18 4 78)]

/-- `Poses.get_kick()`. -/
def kickPose : Pose :=
  [("torso", pe (-8) (-15) (-5)), ("head", pe (-5) 0 (-79)),
   ("left_upper_arm", pe (-50) (-76) (-68)), ("left_forearm", pe (-25) (-59) 30),
   ("right_upper_arm", pe 20 76 (-68)), ("right_forearm", pe 60 58 27),
   ("left_thigh", pe 17 (-40) 87), ("left_shin", pe (-8) (-2) 76),
   ("right_thigh", pe (-90) 14 85), ("right_shin", pe (-5) 6 80)]

/-- `Poses.get_jump()`. -/
def jumpPose : Pose :=
  [("torso", pe 0 0 (-98)), ("head", pe 0 0 (-77)),
   ("left_upper_arm", pe 15 (-67) (-80)), ("left_forearm", pe (-55) (-49) 35),
   ("right_upper_arm", pe (-15) 67 (-80)), ("right_forearm", pe 55 49 35),
   ("left_thigh", pe 25 (-44) 63), ("left_shin", pe (-45) (-5) 85),
   ("right_thigh", pe (-25) 44 63), ("right_shin", pe 45 5 85)]

/-- `Poses.get_hurt()`. -/
def hurtPose : Pose :=
  [("torso", pe (-15) (-31) (-5)), ("head", pe (-10) (-5) (-68)),
   ("left_upper_arm", pe (-40) (-77) (-64)), ("left_forearm", pe (-90) (-48) 32),
   ("right_upper_arm", pe 30 80 (-65)), ("right_forearm", pe 70 43 34),
   ("left_thigh", pe 20 (-38) 76), ("left_shin", pe (-5) (-8) 88),
   ("right_thigh", pe (-15) 42 76), ("right_shin", pe 30 8 88)]

/-- `Poses.get_all_poses()` in the no-JSON environment (the hardcoded
fallback dictionary; file loading is I/O and environment-dependent). -/
def allPoses : List (String × Pose) :=
  [("block", blockPose), ("ready", readyPose), ("punch", punchPose),
   ("kick", kickPose), ("jump", jumpPose), ("hurt", hurtPose)]

/-! ## Flat skeleton state (`skeleton.py`, dictionary side)

`BodyPart`'s render-only fields (`image`, `pivot_offset`) and the child list
are irrelevant to pose application and are omitted here; the hierarchy and
world-transform recursion are modelled separately below over `ℝ`.  The
world fields are carried so that we can state that pose application never
touches them. -/

/-- Local/world transform state of one `BodyPart`, as stored in
`Skeleton.parts`. New parts start at local `[0,0]`, rotation `0`. -/
structure BodyPartState where
  parent : Option String
  localRot : ℚ
  localPos : ℚ × ℚ
  worldPos : ℚ × ℚ
  worldRot : ℚ
deriving DecidableEq

/-- `BodyPart.__init__` transform state. -/
def initBodyPart (parent : Option String) : BodyPartState :=
  ⟨parent, 0, (0, 0), (0, 0), 0⟩

/-- `Skeleton.__init__`: root reference, parts dictionary, root offset. -/
structure SkeletonState where
  root : Option String
  parts : List (String × BodyPartState)
  rootOffset : ℚ × ℚ
deriving DecidableEq

def emptySkeleton : SkeletonState := ⟨none, [], (0, 0)⟩

/-- `Skeleton.set_root`: stores the node as root and indexes it by name.
The source performs no check that a root does not already exist and no
check that the node has no parent. -/
def setRoot (name : String) (bp : BodyPartState) (s : SkeletonState) : SkeletonState :=
  { s with root := some name, parts := dictInsert name bp s.parts }

/-- `Skeleton.add_part`. -/
def addPart (name : String) (bp : BodyPartState) (s : SkeletonState) : SkeletonState :=
  { s with parts := dictInsert name bp s.parts }

/-- Overwrite the fields named in a pose entry (`apply_pose` body:
`if 'rotation' in data: ...; if 'position' in data: ...`). -/
def entryUpd (e : PoseEntry) (b : BodyPartState) : BodyPartState :=
  { b with localRot := e.rotation.getD b.localRot,
           localPos := e.position.getD b.localPos }

/-- One iteration of the `apply_pose` loop: look the part up, mutate it if
present, silently skip it otherwise (`if part:`). -/
def applyPoseEntry (parts : List (String × BodyPartState)) (pr : String × PoseEntry) :
    List (String × BodyPartState) :=
  match alookup pr.1 parts with
  | none => parts
  | some _ => setPart pr.1 (entryUpd pr.2) parts

/-- `Skeleton.apply_pose`: iterate over the pose's entries in order.  The
world fields and the root reference are not touched; `update()` is not
called. -/
def applyPose (s : SkeletonState) (pose : Pose) : SkeletonState :=
  { s with parts := pose.foldl applyPoseEntry s.parts }

/-- Set a part's local position through the dictionary
(`skeleton.parts['torso'].local_position[0] = ...; ...[1] = ...`). -/
def setLocalPos (name : String) (pos : ℚ × ℚ) (s : SkeletonState) : SkeletonState :=
  { s with parts := setPart name (fun b => { b with localPos := pos }) s.parts }

/-- Set a part's local rotation through the dictionary. -/
def setLocalRot (name : String) (r : ℚ) (s : SkeletonState) : SkeletonState :=
  { s with parts := setPart name (fun b => { b with localRot := r }) s.parts }

/-! ## Animation controller (`animation.py`, class `AnimationController`) -/

/-- Per-pose `__meta__` overrides (`duration`, `auto_return`,
`return_delay`), each key optional. -/
structure PoseMeta where
  duration : Option ℚ
  autoReturn : Option Bool
  returnDelay : Option ℚ
deriving DecidableEq

/-- Controller settings remembered in `_meta_prev` while a pose's meta is
applied. -/
structure MetaPrev where
  transitionDuration : ℚ
  autoReturn : Bool
  returnDelay : ℚ
deriving DecidableEq

/-- The mutable state of `AnimationController`. -/
structure AnimationController where
  skeleton : SkeletonState
  currentPose : String
  targetPose : String
  transitionProgress : ℚ
  transitionDuration : ℚ
  poseMeta : List (String × PoseMeta)
  metaPrev : Option MetaPrev
  metaAppliedPose : Option String
  poses : List (String × Pose)
  startPoseData : Pose
  targetPoseData : Pose
  autoReturn : Bool
  returnDelay : ℚ
  returnTimer : ℚ
  actionPoses : List String
  idleTime : ℚ
  idleSwaySpeed : ℚ
  idleSwayAmount : ℚ
deriving DecidableEq

/-- `AnimationController.__init__(skeleton)` (poses from the hardcoded
fallback; `0.12`, `8.0/60.0` and `1.5` as exact rationals). -/
def mkController (s : SkeletonState) : AnimationController :=
  { skeleton := s
    currentPose := "ready"
    targetPose := "ready"
    transitionProgress := 1
    transitionDuration := 12/100
    poseMeta := []
    metaPrev := none
    metaAppliedPose := none
    poses := allPoses
    startPoseData := []
    targetPoseData := []
    autoReturn := true
    returnDelay := 8/60
    returnTimer := 0
    actionPoses := ["punch", "kick", "jump", "block", "hurt", "custom"]
    idleTime := 0
    idleSwaySpeed := 15/10
    idleSwayAmount := 15/10 }

/-- `AnimationController._get_current_pose_data`: snapshot every part's
local transform (both keys always present). -/
def getCurrentPoseData (s : SkeletonState) : Pose :=
  s.parts.map fun p => (p.1, ⟨some p.2.localRot, some p.2.localPos⟩)

/-- `AnimationController._lerp`. -/
def lerp (a b t : ℚ) : ℚ := a + (b - a) * t

/-- `AnimationController._lerp_angle`: shortest-path angle interpolation. -/
def lerpAngle (a b t : ℚ) : ℚ :=
  let diff := b - a
  let diff := if diff > 180 then diff - 360 else if diff < -180 then diff + 360 else diff
  a + diff * t

/-- `AnimationController.set_pose(pose_name, immediate)`.

The source first retries `reload_poses()` when the name is unknown; that
re-reads pose files from disk, which in this in-memory model leaves the
pose table unchanged, so an unknown name is simply the logged no-op. -/
def setPose (name : String) (immediate : Bool) (c : AnimationController) :
    AnimationController :=
  match alookup name c.poses with
  | none => c
  | some pose =>
    if name = c.targetPose ∧ c.transitionProgress < 1 then c
    else if name = c.currentPose ∧ name ≠ "ready" ∧ 1 ≤ c.transitionProgress then c
    else
      let c1 := { c with returnTimer := 0 }
      let c2 := if name ≠ "ready" then { c1 with idleTime := 0 } else c1
      if immediate then
        { c2 with currentPose := name, targetPose := name, transitionProgress := 1,
                  skeleton := applyPose c2.skeleton pose }
      else if name ≠ c2.targetPose then
        let c3 := { c2 with startPoseData := getCurrentPoseData c2.skeleton,
                            targetPose := name,
                            targetPoseData := pose,
                            transitionProgress := 0 }
        match alookup name c3.poseMeta with
        | none => c3
        | some m =>
          { c3 with metaPrev := some ⟨c3.transitionDuration, c3.autoReturn, c3.returnDelay⟩,
                    transitionDuration := m.duration.getD c3.transitionDuration,
                    autoReturn := m.autoReturn.getD c3.autoReturn,
                    returnDelay := m.returnDelay.getD c3.returnDelay,
                    metaAppliedPose := some name }
      else c2

/-- The interpolated pose built inside `update` for the current eased
parameter: every part of the target snapshot that is also in the start
snapshot is blended (position linearly, rotation shortest-path).  The
source indexes `'rotation'` and `'position'` directly on both snapshots
(they are always present: the start snapshot comes from
`_get_current_pose_data` and the built-in poses carry both keys); an entry
lacking either key would raise in the source and contributes nothing
here. -/
def interpolatePose (start target : Pose) (e : ℚ) : Pose :=
  target.filterMap fun prt =>
    match alookup prt.1 start with
    | none => none
    | some sd =>
      match sd.rotation, sd.position, prt.2.rotation, prt.2.position with
      | some sr, some sp, some tr, some tp =>
        some (prt.1, ⟨some (lerpAngle sr tr e),
                      some (lerp sp.1 tp.1 e, lerp sp.2 tp.2 e)⟩)
      | _, _, _, _ => none

/-- Look `self.poses['ready']['torso']['position']` up, `None` on any
missing key (the source's `try/except` swallows the `KeyError`). -/
def readyTorsoPos (c : AnimationController) : Option (ℚ × ℚ) :=
  ((alookup "ready" c.poses).bind (alookup "torso")).bind PoseEntry.position

/-- Look `self.poses['ready']['torso']['rotation']` up, `None` on any
missing key. -/
def readyTorsoRot (c : AnimationController) : Option ℚ :=
  ((alookup "ready" c.poses).bind (alookup "torso")).bind PoseEntry.rotation

/-- The eased parameter: symmetric quadratic ease-in-out of the raw
progress `t` (`update` lines computing `eased_t`). -/
def eased (t : ℚ) : ℚ := if t < 1/2 then 2 * t * t else 1 - 2 * (1 - t) * (1 - t)

/-- The progress advance at the top of `update`'s transition branch:
jump to 1 when the duration is non-positive, else add `dt / duration`
clamped to 1. -/
def advanceProgress (dt : ℚ) (c : AnimationController) : AnimationController :=
  if c.transitionDuration ≤ 0 then { c with transitionProgress := 1 }
  else { c with transitionProgress :=
                  min 1 (c.transitionProgress + dt / c.transitionDuration) }

/-- The completion check at the end of the transition branch: on reaching
progress 1, promote the target to current and arm the auto-return timer
for action poses. -/
def finishTransition (c : AnimationController) : AnimationController :=
  if 1 ≤ c.transitionProgress then
    if c.autoReturn = true ∧ c.targetPose ∈ c.actionPoses then
      { c with currentPose := c.targetPose, returnTimer := c.returnDelay }
    else { c with currentPose := c.targetPose }
  else c

/-- The idle-sway torso write: guarded by `'torso' in skeleton.parts`, the
two `try`-blocks set the torso's local position from the ready pose's
torso entry minus the sway, then restore the torso's local rotation; a
failed lookup leaves the corresponding field untouched. -/
def idleTorsoUpdate (sway : ℚ) (c : AnimationController) : AnimationController :=
  if (alookup "torso" c.skeleton.parts).isSome then
    let cpos :=
      match readyTorsoPos c with
      | some bp => { c with skeleton := setLocalPos "torso" (bp.1, bp.2 - sway) c.skeleton }
      | none => c
    match readyTorsoRot cpos with
    | some br => { cpos with skeleton := setLocalRot "torso" br cpos.skeleton }
    | none => cpos
  else c

/-- The tail of the idle branch: restore the controller settings saved
when a pose's `__meta__` was applied, if any. -/
def metaRestore (c : AnimationController) : AnimationController :=
  match c.metaAppliedPose, c.metaPrev with
  | some _, some prev =>
    { c with transitionDuration := prev.transitionDuration,
             autoReturn := prev.autoReturn,
             returnDelay := prev.returnDelay,
             metaPrev := none, metaAppliedPose := none }
  | _, _ => c

/-- `AnimationController.update(dt)`.  `sinFn` stands for `math.sin`,
used only by the idle sway. -/
def updateAC (sinFn : ℚ → ℚ) (dt : ℚ) (c : AnimationController) : AnimationController :=
  if c.transitionProgress < 1 then
    let c1 := advanceProgress dt c
    let e := eased c1.transitionProgress
    let c2 := { c1 with skeleton :=
                  applyPose c1.skeleton (interpolatePose c1.startPoseData c1.targetPoseData e) }
    finishTransition c2
  else if 0 < c.returnTimer then
    let c1 := { c with returnTimer := c.returnTimer - dt }
    if c1.returnTimer ≤ 0 then setPose "ready" false c1 else c1
  else if c.currentPose = "ready" ∧ c.targetPose = "ready" then
    let c1 := { c with idleTime := c.idleTime + c.idleSwaySpeed * dt }
    metaRestore (idleTorsoUpdate (sinFn c1.idleTime * c1.idleSwayAmount) c1)
  else c

/-- A fixed stand-in for `math.sin` in traces whose idle branch is never
reached (any function would do). -/
def sin0 : ℚ → ℚ := fun _ => 0

/-! ## The demo character (built as in `test_skeleton.py`) -/

/-- The ten standard parts with their parents, in construction order. -/
def demoParts : List (String × Option String) :=
  [("head", some "torso"),
   ("left_upper_arm", some "torso"), ("left_forearm", some "left_upper_arm"),
   ("right_upper_arm", some "torso"), ("right_forearm", some "right_upper_arm"),
   ("left_thigh", some "torso"), ("left_shin", some "left_thigh"),
   ("right_thigh", some "torso"), ("right_shin", some "right_thigh")]

/-- The standard ten-part skeleton: torso root, then the limbs. -/
def demoSkeleton : SkeletonState :=
  demoParts.foldl (fun s p => addPart p.1 (initBodyPart p.2) s)
    (setRoot "torso" (initBodyPart none) emptySkeleton)

/-- The demo character settled at rest: controller freshly constructed and
snapped to the ready pose. -/
def cRest : AnimationController := setPose "ready" true (mkController demoSkeleton)

/-- `cRest` after `set_pose("kick")` (a non-immediate transition begins). -/
def cKickStart : AnimationController := setPose "kick" false cRest

/-! ## Hierarchical world transforms (`skeleton.py`, `BodyPart.update_transform`)

The parent/children links of `BodyPart` form a tree; `update_transform`
recomputes `world_rotation`/`world_position` top-down.  Angles are degrees;
the source converts with `math.radians` before `math.cos`/`math.sin`.  The
degree-trigonometry is passed in as the two function parameters `cosD` and
`sinD` (instantiated with `degCos`/`degSin` below in the theorems), keeping
the recursion itself ordinary computable code. -/

/-- A body part with its subtree: name, local transform, cached world
transform, ordered children (render-only fields omitted). -/
inductive BP where
  | mk (name : String) (localPos : ℝ × ℝ) (localRot : ℝ)
       (worldPos : ℝ × ℝ) (worldRot : ℝ) (children : List BP)

def BP.name : BP → String | .mk n _ _ _ _ _ => n

def BP.localPos : BP → ℝ × ℝ | .mk _ lp _ _ _ _ => lp

def BP.localRot : BP → ℝ | .mk _ _ lr _ _ _ => lr

def BP.worldPos : BP → ℝ × ℝ | .mk _ _ _ wp _ _ => wp

def BP.worldRot : BP → ℝ | .mk _ _ _ _ wr _ => wr

def BP.children : BP → List BP | .mk _ _ _ _ _ cs => cs

mutual

/-- `BodyPart.update_transform` for a node with a parent: compose with the
parent's world frame (`pwp`, `pwr`) and recurse. -/
def updateChild (cosD sinD : ℝ → ℝ) (pwp : ℝ × ℝ) (pwr : ℝ) : BP → BP
  | .mk n lp lr _ _ cs =>
    let wr := pwr + lr
    let rx := lp.1 * cosD pwr - lp.2 * sinD pwr
    let ry := lp.1 * sinD pwr + lp.2 * cosD pwr
    let wp := (pwp.1 + rx, pwp.2 + ry)
    .mk n lp lr wp wr (updateChildren cosD sinD wp wr cs)

/-- The recursive `for child in self.children: child.update_transform(...)`. -/
def updateChildren (cosD sinD : ℝ → ℝ) (pwp : ℝ × ℝ) (pwr : ℝ) : List BP → List BP
  | [] => []
  | c :: cs => updateChild cosD sinD pwp pwr c :: updateChildren cosD sinD pwp pwr cs

end

/-- `BodyPart.update_transform` for the root (as invoked from
`Skeleton.update`, which always passes `root_base_position`):
`world_rotation = local_rotation`, `world_position = base + local_position`,
then recurse into the children with the root's world frame. -/
def updateRoot (cosD sinD : ℝ → ℝ) (base : ℝ × ℝ) : BP → BP
  | .mk n lp lr _ _ cs =>
    let wr := lr
    let wp := (base.1 + lp.1, base.2 + lp.2)
    .mk n lp lr wp wr (updateChildren cosD sinD wp wr cs)

/-- `math.cos(math.radians θ)`. -/
noncomputable def degCos (θ : ℝ) : ℝ := Real.cos (θ * Real.pi / 180)

/-- `math.sin(math.radians θ)`. -/
noncomputable def degSin (θ : ℝ) : ℝ := Real.sin (θ * Real.pi / 180)

/-- The world frame the spec demands of a non-root node `c` whose parent
has world frame (`pwp`, `pwr`): accumulated rotation, and position offset
by the local position rotated with the standard 2D rotation matrix for the
parent's world rotation. -/
def childFrame (cosD sinD : ℝ → ℝ) (pwp : ℝ × ℝ) (pwr : ℝ) (c : BP) : Prop :=
  c.worldRot = pwr + c.localRot ∧
  c.worldPos = (pwp.1 + (c.localPos.1 * cosD pwr - c.localPos.2 * sinD pwr),
                pwp.2 + (c.localPos.1 * sinD pwr + c.localPos.2 * cosD pwr))

/-- Every node's children carry world transforms composed from that node's
world frame, recursively through the whole tree. -/
inductive TransformInv (cosD sinD : ℝ → ℝ) : BP → Prop where
  | node (n : String) (lp : ℝ × ℝ) (lr : ℝ) (wp : ℝ × ℝ) (wr : ℝ) (cs : List BP)
      (hframe : ∀ c ∈ cs, childFrame cosD sinD wp wr c)
      (hrec : ∀ c ∈ cs, TransformInv cosD sinD c) :
      TransformInv cosD sinD (.mk n lp lr wp wr cs)

/-! ## Dictionary lemmas -/

theorem alookup_setPart {α : Type} (n m : String) (f : α → α) (l : List (String × α)) :
    alookup n (setPart m f l) = if n = m then (alookup n l).map f else alookup n l := by
  induction l with
  | nil =>
    simp only [setPart, List.map_nil, alookup]
    split <;> rfl
  | cons p ps ih =>
    obtain ⟨k, v⟩ := p
    by_cases hkm : k = m
    · subst hkm
      by_cases hkn : k = n
      · subst hkn
        simp [setPart, alookup]
      · simpa [setPart, alookup, hkn, Ne.symm hkn] using ih
    · by_cases hkn : k = n
      · subst hkn
        simp [setPart, alookup, hkm, Ne.symm hkm, ih]
      · simpa [setPart, alookup, hkm, hkn] using ih

theorem alookup_applyPoseEntry (n m : String) (e : PoseEntry)
    (l : List (String × BodyPartState)) :
    alookup n (applyPoseEntry l (m, e)) =
      if n = m then (alookup n l).map (entryUpd e) else alookup n l := by
  unfold applyPoseEntry
  cases h : alookup m l with
  | none =>
    by_cases hnm : n = m
    · subst hnm; simp [h]
    · simp [hnm]
  | some b => simp [alookup_setPart]

theorem alookup_applyPose_notMem (P : Pose) :
    ∀ (l : List (String × BodyPartState)) (n : String), n ∉ P.map Prod.fst →
      alookup n (P.foldl applyPoseEntry l) = alookup n l := by
  induction P with
  | nil => intro l n _; rfl
  | cons q P ih =>
    intro l n hn
    obtain ⟨m, e⟩ := q
    simp only [List.map_cons, List.mem_cons, not_or] at hn
    simp only [List.foldl_cons]
    rw [ih _ _ hn.2, alookup_applyPoseEntry, if_neg hn.1]

theorem alookup_applyPose_none (P : Pose) :
    ∀ (l : List (String × BodyPartState)) (n : String), alookup n l = none →
      alookup n (P.foldl applyPoseEntry l) = none := by
  induction P with
  | nil => intro l n h; exact h
  | cons q P ih =>
    intro l n h
    refine ih _ _ ?_
    rw [alookup_applyPoseEntry]
    split <;> simp [h]

theorem alookup_applyPose_mem (P : Pose) :
    ∀ (l : List (String × BodyPartState)) (n : String) (e : PoseEntry) (b : BodyPartState),
      (P.map Prod.fst).Nodup → (n, e) ∈ P → alookup n l = some b →
      alookup n (P.foldl applyPoseEntry l) = some (entryUpd e b) := by
  induction P with
  | nil => intro _ _ _ _ _ h; exact absurd h (List.not_mem_nil _)
  | cons q P ih =>
    intro l n e b hnd hmem hb
    obtain ⟨m, f⟩ := q
    simp only [List.map_cons, List.nodup_cons] at hnd
    rcases List.mem_cons.mp hmem with heq | htl
    · obtain ⟨rfl, rfl⟩ := Prod.mk.injEq .. ▸ heq
      simp only [List.foldl_cons]
      rw [alookup_applyPose_notMem P _ _ hnd.1, alookup_applyPoseEntry, if_pos rfl, hb]
      rfl
    · have hnm : n ≠ m := by
        intro h
        exact hnd.1 (h ▸ (List.mem_map_of_mem Prod.fst htl))
      simp only [List.foldl_cons]
      refine ih _ _ _ _ hnd.2 htl ?_
      rw [alookup_applyPoseEntry, if_neg hnm, hb]

theorem alookup_applyPose_world (P : Pose) :
    ∀ (l : List (String × BodyPartState)) (n : String) (b : BodyPartState),
      alookup n l = some b →
      ∃ b', alookup n (P.foldl applyPoseEntry l) = some b' ∧
        b'.worldPos = b.worldPos ∧ b'.worldRot = b.worldRot ∧ b'.parent = b.parent := by
  induction P with
  | nil => intro l n b h; exact ⟨b, h, rfl, rfl, rfl⟩
  | cons q P ih =>
    intro l n b hb
    obtain ⟨m, e⟩ := q
    simp only [List.foldl_cons]
    by_cases hnm : n = m
    · obtain ⟨b', hb', h1, h2, h3⟩ :=
        ih (applyPoseEntry l (m, e)) n (entryUpd e b)
          (by rw [alookup_applyPoseEntry, if_pos hnm, hb]; rfl)
      exact ⟨b', hb', h1, h2, h3⟩
    · exact ih _ _ _ (by rw [alookup_applyPoseEntry, if_neg hnm, hb])

theorem alookup_append_single {α : Type} (n k : String) (v : α) :
    ∀ l : List (String × α),
      alookup n (l ++ [(k, v)]) =
        match alookup n l with
        | some b => some b
        | none => if k = n then some v else none := by
  intro l
  induction l with
  | nil => rfl
  | cons p ps ih =>
    by_cases hpn : p.1 = n
    · simp [alookup, hpn]
    · simpa [alookup, hpn] using ih

theorem alookup_replace {α : Type} (n k : String) (v : α) :
    ∀ l : List (String × α),
      alookup n (l.map fun p => if p.1 = k then (k, v) else p) =
        if n = k then (alookup k l).map (fun _ => v) else alookup n l := by
  intro l
  induction l with
  | nil =>
    simp only [List.map_nil, alookup]
    split <;> rfl
  | cons p ps ih =>
    obtain ⟨a, w⟩ := p
    by_cases hak : a = k
    · subst hak
      by_cases han : a = n
      · subst han
        simp [alookup]
      · simpa [alookup, han, Ne.symm han] using ih
    · by_cases han : a = n
      · subst han
        have hnk : a ≠ k := hak
        simp [alookup, hak, hnk, ih]
      · simpa [alookup, hak, han] using ih

theorem alookup_dictInsert {α : Type} (n k : String) (v : α) (l : List (String × α)) :
    alookup n (dictInsert k v l) = if n = k then some v else alookup n l := by
  unfold dictInsert
  split
  · rename_i hs
    rw [alookup_replace]
    by_cases hnk : n = k
    · subst hnk
      cases h : alookup n l with
      | none => rw [h] at hs; simp at hs
      | some b => simp
    · simp [hnk]
  · rename_i hs
    rw [alookup_append_single]
    by_cases hnk : n = k
    · subst hnk
      cases h : alookup n l with
      | none => simp
      | some b => rw [h] at hs; simp at hs
    · have hkn : ¬ k = n := fun h2 => hnk h2.symm
      cases h : alookup n l with
      | none => simp [hkn, hnk]
      | some b => simp [hnk]

/-! ## Theorems for the claims -/

/-- C3: for all start and target rotations, the rotation blend computes
`diff = target - start`, subtracts 360 when `diff > 180` and adds 360 when
`diff < -180`, and returns `start + diff * e`; in particular interpolating
from 170 degrees to -170 degrees at eased parameter `e = 1/2` yields
exactly 180 degrees (the 20-degree short path, not the 340-degree path
through 0). -/
theorem c3_shortest_path_angle_lerp :
    (∀ a b t : ℚ, lerpAngle a b t =
        if 180 < b - a then a + (b - a - 360) * t
        else if b - a < -180 then a + (b - a + 360) * t
        else a + (b - a) * t) ∧
    lerpAngle 170 (-170) (1/2) = 180 := by
  constructor
  · intro a b t
    simp only [lerpAngle, gt_iff_lt]
    split_ifs <;> rfl
  · norm_num [lerpAngle]

theorem updateChildren_eq_map (cosD sinD : ℝ → ℝ) (pwp : ℝ × ℝ) (pwr : ℝ) :
    ∀ l : List BP, updateChildren cosD sinD pwp pwr l = l.map (updateChild cosD sinD pwp pwr) := by
  intro l
  induction l with
  | nil => rfl
  | cons c cs ih => simp [updateChildren, ih]

theorem updateChild_childFrame (cosD sinD : ℝ → ℝ) (pwp : ℝ × ℝ) (pwr : ℝ) (c : BP) :
    childFrame cosD sinD pwp pwr (updateChild cosD sinD pwp pwr c) := by
  cases c with
  | mk n lp lr wp wr cs =>
    simp [updateChild, childFrame, BP.worldRot, BP.localRot, BP.worldPos, BP.localPos]

theorem updateChild_inv_aux (cosD sinD : ℝ → ℝ) :
    ∀ (k : ℕ) (t : BP), sizeOf t ≤ k → ∀ (pwp : ℝ × ℝ) (pwr : ℝ),
      TransformInv cosD sinD (updateChild cosD sinD pwp pwr t) := by
  intro k
  induction k with
  | zero =>
    intro t ht
    exfalso
    cases t with
    | mk n lp lr wp wr cs =>
      simp [BP.mk.sizeOf_spec] at ht
  | succ k ih =>
    intro t ht pwp pwr
    cases t with
    | mk n lp lr wp wr cs =>
      rw [updateChild]
      refine TransformInv.node _ _ _ _ _ _ ?_ ?_
      · intro c hc
        rw [updateChildren_eq_map] at hc
        obtain ⟨c0, _, rfl⟩ := List.mem_map.mp hc
        exact updateChild_childFrame ..
      · intro c hc
        rw [updateChildren_eq_map] at hc
        obtain ⟨c0, hc0, rfl⟩ := List.mem_map.mp hc
        refine ih c0 ?_ _ _
        have h1 := List.sizeOf_lt_of_mem hc0
        simp [BP.mk.sizeOf_spec] at ht
        omega

theorem updateRoot_inv (cosD sinD : ℝ → ℝ) (base : ℝ × ℝ) (t : BP) :
    TransformInv cosD sinD (updateRoot cosD sinD base t) := by
  cases t with
  | mk n lp lr wp wr cs =>
    rw [updateRoot]
    refine TransformInv.node _ _ _ _ _ _ ?_ ?_
    · intro c hc
      rw [updateChildren_eq_map] at hc
      obtain ⟨c0, _, rfl⟩ := List.mem_map.mp hc
      exact updateChild_childFrame ..
    · intro c hc
      rw [updateChildren_eq_map] at hc
      obtain ⟨c0, hc0, rfl⟩ := List.mem_map.mp hc
      exact updateChild_inv_aux cosD sinD (sizeOf c0) c0 le_rfl _ _

theorem degCos_90 : degCos 90 = 0 := by
  rw [degCos, show (90:ℝ) * Real.pi / 180 = Real.pi / 2 by ring, Real.cos_pi_div_two]

theorem degSin_90 : degSin 90 = 1 := by
  rw [degSin, show (90:ℝ) * Real.pi / 180 = Real.pi / 2 by ring, Real.sin_pi_div_two]

/-- C1: for every skeleton tree, after `update` (modelled by `updateRoot`,
as invoked from `Skeleton.update`) every non-root node's world rotation is
its parent's world rotation plus its local rotation, and its world
position is its parent's world position plus its local position rotated by
the parent's world rotation (standard 2D rotation matrix, degrees
converted to radians inside `degCos`/`degSin`); in particular, for a
two-level chain whose root is rotated 90 degrees and whose child has
local position (10, 0) and local rotation 0, the child's world position is
the root's world position plus (0, 10). -/
theorem c1_world_transform_composition :
    (∀ (t : BP) (base : ℝ × ℝ), TransformInv degCos degSin (updateRoot degCos degSin base t)) ∧
    (∀ px py : ℝ,
      updateRoot degCos degSin (px, py)
        (BP.mk "root" (0, 0) 90 (0, 0) 0 [BP.mk "child" (10, 0) 0 (0, 0) 0 []]) =
      BP.mk "root" (0, 0) 90 (px, py) 90 [BP.mk "child" (10, 0) 0 (px, py + 10) 90 []]) := by
  constructor
  · intro t base
    exact updateRoot_inv degCos degSin base t
  · intro px py
    simp [updateRoot, updateChildren, updateChild, degCos_90, degSin_90]

/-- C6: `Skeleton.apply_pose(P)` overwrites the local transform fields of
exactly those parts named in `P` that exist in the skeleton's name index
(the fields named in the entry; every built-in entry names both); entries
of `P` naming parts absent from the skeleton are silently ignored; every
part not named in `P` keeps its state unchanged; and no part's world
position or world rotation (nor the root reference or root offset) is
recomputed by `apply_pose`. -/
theorem c6_apply_pose_partial_application (s : SkeletonState) (P : Pose)
    (hnd : (P.map Prod.fst).Nodup) :
    ((applyPose s P).root = s.root ∧ (applyPose s P).rootOffset = s.rootOffset) ∧
    (∀ n e, (n, e) ∈ P → ∀ b, alookup n s.parts = some b →
      alookup n (applyPose s P).parts = some (entryUpd e b)) ∧
    (∀ n, alookup n s.parts = none → alookup n (applyPose s P).parts = none) ∧
    (∀ n, n ∉ P.map Prod.fst → alookup n (applyPose s P).parts = alookup n s.parts) ∧
    (∀ n b, alookup n s.parts = some b →
      ∃ b', alookup n (applyPose s P).parts = some b' ∧
        b'.worldPos = b.worldPos ∧ b'.worldRot = b.worldRot ∧ b'.parent = b.parent) := by
  refine ⟨⟨rfl, rfl⟩, ?_, ?_, ?_, ?_⟩
  · intro n e hmem b hb
    exact alookup_applyPose_mem P s.parts n e b hnd hmem hb
  · intro n hn
    exact alookup_applyPose_none P s.parts n hn
  · intro n hn
    exact alookup_applyPose_notMem P s.parts n hn
  · intro n b hb
    exact alookup_applyPose_world P s.parts n b hb

/-- C6 witness: applying a one-entry pose to the demo skeleton overwrites
exactly the torso's local transform. -/
theorem c6_apply_pose_partial_application_witness :
    alookup "torso" (applyPose demoSkeleton [("torso", pe 30 1 2)]).parts =
      some (entryUpd (pe 30 1 2) (initBodyPart none)) ∧
    alookup "head" (applyPose demoSkeleton [("torso", pe 30 1 2)]).parts =
      alookup "head" demoSkeleton.parts := by
  have h := c6_apply_pose_partial_application demoSkeleton [("torso", pe 30 1 2)] (by decide)
  refine ⟨?_, ?_⟩
  · exact h.2.1 "torso" (pe 30 1 2) (by decide) (initBodyPart none) (by decide)
  · exact h.2.2.2.1 "head" (by decide)

/-- C8 counterexample: `apply_pose` stores the supplied rotation verbatim;
storing rotation 500 on the demo skeleton's torso leaves `local_rotation`
at 500, which does not lie in the interval (-180, 180]. -/
theorem c8_rotation_not_wrapped :
    (alookup "torso" (applyPose demoSkeleton [("torso", ⟨some 500, none⟩)]).parts).map
        BodyPartState.localRot = some 500 ∧
    ¬ ((-180 : ℚ) < 500 ∧ (500 : ℚ) ≤ 180) := by
  decide

/-- C8 amended: stored `local_rotation` values are not wrapped to
(-180, 180]; `apply_pose` (and hence an immediate `set_pose`, which calls
it) stores whatever rotation value the pose entry supplies, verbatim, even
far outside that interval. -/
theorem c8_rotation_stored_verbatim (s : SkeletonState) (n : String) (e : PoseEntry)
    (r : ℚ) (b : BodyPartState) (hb : alookup n s.parts = some b)
    (hr : e.rotation = some r) :
    (alookup n (applyPose s [(n, e)]).parts).map BodyPartState.localRot = some r := by
  have h := alookup_applyPose_mem [(n, e)] s.parts n e b (by simp) (by simp) hb
  simp only [applyPose, h]
  simp [entryUpd, hr]

/-- C8 amended witness: rotation 500 on the demo torso is stored as 500. -/
theorem c8_rotation_stored_verbatim_witness :
    (alookup "torso" (applyPose demoSkeleton [("torso", ⟨some 500, none⟩)]).parts).map
        BodyPartState.localRot = some 500 :=
  c8_rotation_stored_verbatim demoSkeleton "torso" ⟨some 500, none⟩ 500
    (initBodyPart none) (by decide) rfl

/-- C9 counterexample: `set_root` called on a skeleton that already has
root "a", with a node whose parent is "a", silently succeeds and replaces
the root — no failure occurs and no parent check is performed. -/
theorem c9_set_root_silently_replaces :
    (setRoot "a" (initBodyPart none) emptySkeleton).root = some "a" ∧
    (setRoot "b" (initBodyPart (some "a")) (setRoot "a" (initBodyPart none) emptySkeleton)).root
      = some "b" ∧
    (initBodyPart (some "a")).parent = some "a" ∧
    alookup "a" (setRoot "b" (initBodyPart (some "a"))
        (setRoot "a" (initBodyPart none) emptySkeleton)).parts = some (initBodyPart none) := by
  decide

/-- C9 amended: `set_root` unconditionally stores the given node as root
and indexes it by name, silently replacing any existing root and leaving
every other part untouched; it performs no check that the node has no
parent and never fails. -/
theorem c9_set_root_overwrites_root (s : SkeletonState) (name : String) (bp : BodyPartState) :
    (setRoot name bp s).root = some name ∧
    alookup name (setRoot name bp s).parts = some bp ∧
    (setRoot name bp s).rootOffset = s.rootOffset ∧
    (∀ m, m ≠ name → alookup m (setRoot name bp s).parts = alookup m s.parts) := by
  refine ⟨rfl, ?_, rfl, ?_⟩
  · simp [setRoot, alookup_dictInsert]
  · intro m hm
    simp [setRoot, alookup_dictInsert, hm]

/-- C9 amended witness: replacing the root of a one-part skeleton. -/
theorem c9_set_root_overwrites_root_witness :
    (setRoot "b" (initBodyPart (some "a")) (setRoot "a" (initBodyPart none) emptySkeleton)).root
      = some "b" ∧
    alookup "a" (setRoot "b" (initBodyPart (some "a"))
        (setRoot "a" (initBodyPart none) emptySkeleton)).parts
      = alookup "a" (setRoot "a" (initBodyPart none) emptySkeleton).parts := by
  have h := c9_set_root_overwrites_root (setRoot "a" (initBodyPart none) emptySkeleton) "b"
    (initBodyPart (some "a"))
  exact ⟨h.1, h.2.2.2 "a" (by decide)⟩

/-! ## Field-projection lemmas for the `update` sub-steps -/

@[simp] theorem advanceProgress_currentPose (dt : ℚ) (c : AnimationController) :
    (advanceProgress dt c).currentPose = c.currentPose := by
  unfold advanceProgress; split <;> rfl

@[simp] theorem advanceProgress_targetPose (dt : ℚ) (c : AnimationController) :
    (advanceProgress dt c).targetPose = c.targetPose := by
  unfold advanceProgress; split <;> rfl

@[simp] theorem advanceProgress_returnTimer (dt : ℚ) (c : AnimationController) :
    (advanceProgress dt c).returnTimer = c.returnTimer := by
  unfold advanceProgress; split <;> rfl

@[simp] theorem advanceProgress_idleTime (dt : ℚ) (c : AnimationController) :
    (advanceProgress dt c).idleTime = c.idleTime := by
  unfold advanceProgress; split <;> rfl

@[simp] theorem advanceProgress_autoReturn (dt : ℚ) (c : AnimationController) :
    (advanceProgress dt c).autoReturn = c.autoReturn := by
  unfold advanceProgress; split <;> rfl

@[simp] theorem advanceProgress_returnDelay (dt : ℚ) (c : AnimationController) :
    (advanceProgress dt c).returnDelay = c.returnDelay := by
  unfold advanceProgress; split <;> rfl

@[simp] theorem advanceProgress_actionPoses (dt : ℚ) (c : AnimationController) :
    (advanceProgress dt c).actionPoses = c.actionPoses := by
  unfold advanceProgress; split <;> rfl

@[simp] theorem advanceProgress_skeleton (dt : ℚ) (c : AnimationController) :
    (advanceProgress dt c).skeleton = c.skeleton := by
  unfold advanceProgress; split <;> rfl

theorem advanceProgress_transitionProgress (dt : ℚ) (c : AnimationController) :
    (advanceProgress dt c).transitionProgress =
      if c.transitionDuration ≤ 0 then 1
      else min 1 (c.transitionProgress + dt / c.transitionDuration) := by
  unfold advanceProgress; split <;> simp_all

@[simp] theorem finishTransition_transitionProgress (c : AnimationController) :
    (finishTransition c).transitionProgress = c.transitionProgress := by
  unfold finishTransition; split <;> [split <;> rfl; rfl]

@[simp] theorem finishTransition_targetPose (c : AnimationController) :
    (finishTransition c).targetPose = c.targetPose := by
  unfold finishTransition; split <;> [split <;> rfl; rfl]

@[simp] theorem finishTransition_idleTime (c : AnimationController) :
    (finishTransition c).idleTime = c.idleTime := by
  unfold finishTransition; split <;> [split <;> rfl; rfl]

@[simp] theorem finishTransition_skeleton (c : AnimationController) :
    (finishTransition c).skeleton = c.skeleton := by
  unfold finishTransition; split <;> [split <;> rfl; rfl]

theorem finishTransition_currentPose (c : AnimationController) :
    (finishTransition c).currentPose =
      if 1 ≤ c.transitionProgress then c.targetPose else c.currentPose := by
  unfold finishTransition; split <;> [split <;> simp_all; simp_all]

theorem finishTransition_returnTimer (c : AnimationController) :
    (finishTransition c).returnTimer =
      if 1 ≤ c.transitionProgress then
        (if c.autoReturn = true ∧ c.targetPose ∈ c.actionPoses then c.returnDelay
         else c.returnTimer)
      else c.returnTimer := by
  unfold finishTransition; split <;> [split <;> simp_all; simp_all]

@[simp] theorem idleTorsoUpdate_currentPose (w : ℚ) (c : AnimationController) :
    (idleTorsoUpdate w c).currentPose = c.currentPose := by
  unfold idleTorsoUpdate
  split <;> [cases readyTorsoPos c <;> dsimp only <;> split <;> rfl; rfl]

@[simp] theorem idleTorsoUpdate_targetPose (w : ℚ) (c : AnimationController) :
    (idleTorsoUpdate w c).targetPose = c.targetPose := by
  unfold idleTorsoUpdate
  split <;> [cases readyTorsoPos c <;> dsimp only <;> split <;> rfl; rfl]

@[simp] theorem idleTorsoUpdate_transitionProgress (w : ℚ) (c : AnimationController) :
    (idleTorsoUpdate w c).transitionProgress = c.transitionProgress := by
  unfold idleTorsoUpdate
  split <;> [cases readyTorsoPos c <;> dsimp only <;> split <;> rfl; rfl]

@[simp] theorem idleTorsoUpdate_returnTimer (w : ℚ) (c : AnimationController) :
    (idleTorsoUpdate w c).returnTimer = c.returnTimer := by
  unfold idleTorsoUpdate
  split <;> [cases readyTorsoPos c <;> dsimp only <;> split <;> rfl; rfl]

@[simp] theorem idleTorsoUpdate_idleTime (w : ℚ) (c : AnimationController) :
    (idleTorsoUpdate w c).idleTime = c.idleTime := by
  unfold idleTorsoUpdate
  split <;> [cases readyTorsoPos c <;> dsimp only <;> split <;> rfl; rfl]

@[simp] theorem idleTorsoUpdate_metaAppliedPose (w : ℚ) (c : AnimationController) :
    (idleTorsoUpdate w c).metaAppliedPose = c.metaAppliedPose := by
  unfold idleTorsoUpdate
  split <;> [cases readyTorsoPos c <;> dsimp only <;> split <;> rfl; rfl]

@[simp] theorem idleTorsoUpdate_metaPrev (w : ℚ) (c : AnimationController) :
    (idleTorsoUpdate w c).metaPrev = c.metaPrev := by
  unfold idleTorsoUpdate
  split <;> [cases readyTorsoPos c <;> dsimp only <;> split <;> rfl; rfl]

@[simp] theorem metaRestore_currentPose (c : AnimationController) :
    (metaRestore c).currentPose = c.currentPose := by
  unfold metaRestore
  cases c.metaAppliedPose <;> cases c.metaPrev <;> rfl

@[simp] theorem metaRestore_targetPose (c : AnimationController) :
    (metaRestore c).targetPose = c.targetPose := by
  unfold metaRestore
  cases c.metaAppliedPose <;> cases c.metaPrev <;> rfl

@[simp] theorem metaRestore_transitionProgress (c : AnimationController) :
    (metaRestore c).transitionProgress = c.transitionProgress := by
  unfold metaRestore
  cases c.metaAppliedPose <;> cases c.metaPrev <;> rfl

@[simp] theorem metaRestore_returnTimer (c : AnimationController) :
    (metaRestore c).returnTimer = c.returnTimer := by
  unfold metaRestore
  cases c.metaAppliedPose <;> cases c.metaPrev <;> rfl

@[simp] theorem metaRestore_idleTime (c : AnimationController) :
    (metaRestore c).idleTime = c.idleTime := by
  unfold metaRestore
  cases c.metaAppliedPose <;> cases c.metaPrev <;> rfl

@[simp] theorem metaRestore_skeleton (c : AnimationController) :
    (metaRestore c).skeleton = c.skeleton := by
  unfold metaRestore
  cases c.metaAppliedPose <;> cases c.metaPrev <;> rfl

unseal Rat.mul Rat.inv Rat.add Rat.sub in
/-- C4 counterexample: `update` with a negative `dt` is not a no-op; from
the demo character's freshly started kick transition (progress 0),
`update(-1/60)` moves `transition_progress` backward to -5/36, so the
state does advance (regresses). -/
theorem c4_negative_dt_advances_state :
    cKickStart.transitionProgress = 0 ∧
    (updateAC sin0 (-(1/60)) cKickStart).transitionProgress = -(5/36) := by
  decide

/-- C4 amended: `update` with `dt = 0` (and a positive transition
duration, the default) leaves `transition_progress`, `return_timer`,
`idle_phase`, `current_pose` and `target_pose` unchanged and does not
fail; but it may still rewrite skeleton local transforms (the blended or
idle values are re-applied), and a negative `dt` is not a no-op: it moves
`transition_progress` backward mid-transition (see the counterexample)
and increases `return_timer` during countdown. -/
theorem c4_zero_dt_preserves_controller_state (c : AnimationController) (sinFn : ℚ → ℚ)
    (hdur : 0 < c.transitionDuration) :
    (updateAC sinFn 0 c).transitionProgress = c.transitionProgress ∧
    (updateAC sinFn 0 c).returnTimer = c.returnTimer ∧
    (updateAC sinFn 0 c).idleTime = c.idleTime ∧
    (updateAC sinFn 0 c).currentPose = c.currentPose ∧
    (updateAC sinFn 0 c).targetPose = c.targetPose := by
  by_cases h1 : c.transitionProgress < 1
  · have hd : ¬ c.transitionDuration ≤ 0 := not_le.mpr hdur
    have hp : (advanceProgress 0 c).transitionProgress = c.transitionProgress := by
      rw [advanceProgress_transitionProgress, if_neg hd, zero_div, add_zero]
      exact min_eq_right h1.le
    have hnle : ¬ (1 : ℚ) ≤ c.transitionProgress := not_le.mpr h1
    simp only [updateAC, if_pos h1]
    refine ⟨?_, ?_, ?_, ?_, ?_⟩ <;>
      simp [finishTransition_currentPose, finishTransition_returnTimer, hp, hnle]
  · by_cases h5 : 0 < c.returnTimer
    · have h6 : ¬ c.returnTimer ≤ 0 := not_le.mpr h5
      simp only [updateAC, if_neg h1, if_pos h5]
      simp [h6]
    · by_cases h7 : c.currentPose = "ready" ∧ c.targetPose = "ready"
      · simp only [updateAC, if_neg h1, if_neg h5, if_pos h7]
        simp
      · simp [updateAC, if_neg h1, if_neg h5, if_neg h7]

unseal Rat.mul Rat.inv Rat.add Rat.sub in
/-- C4 amended witness: a zero-`dt` update of the resting demo character
changes none of the five controller-state fields. -/
theorem c4_zero_dt_preserves_controller_state_witness :
    (updateAC sin0 0 cRest).transitionProgress = cRest.transitionProgress ∧
    (updateAC sin0 0 cRest).returnTimer = cRest.returnTimer ∧
    (updateAC sin0 0 cRest).idleTime = cRest.idleTime ∧
    (updateAC sin0 0 cRest).currentPose = cRest.currentPose ∧
    (updateAC sin0 0 cRest).targetPose = cRest.targetPose :=
  c4_zero_dt_preserves_controller_state cRest sin0 (by decide)

/-- C5: if the controller is mid-transition toward pose `N`
(`target_pose = N`, `transition_progress < 1`), then `set_pose(N)` (non
immediate) leaves the entire controller state unchanged — in particular
`transition_progress` is not reset — and progress toward the same target
only advances monotonically toward 1.0 across subsequent updates with
non-negative `dt` (the target never changing mid-transition). -/
theorem c5_duplicate_target_ignored (c : AnimationController) (N : String)
    (h1 : c.targetPose = N) (h2 : c.transitionProgress < 1) :
    setPose N false c = c ∧
    (∀ (sinFn : ℚ → ℚ) (dt : ℚ), 0 ≤ dt →
      c.transitionProgress ≤ (updateAC sinFn dt c).transitionProgress ∧
      (updateAC sinFn dt c).targetPose = c.targetPose) := by
  constructor
  · unfold setPose
    cases h : alookup N c.poses with
    | none => rfl
    | some pose => simp [h1, h2]
  · intro sinFn dt hdt
    constructor
    · simp only [updateAC, if_pos h2, finishTransition_transitionProgress]
      rw [advanceProgress_transitionProgress]
      split_ifs with hd
      · exact h2.le
      · exact le_min h2.le (le_add_of_nonneg_right (div_nonneg hdt (not_le.mp hd).le))
    · simp only [updateAC, if_pos h2, finishTransition_targetPose]
      rw [advanceProgress_targetPose]

unseal Rat.mul Rat.inv Rat.add Rat.sub in
/-- C5 witness: one frame into the kick transition (progress 5/36),
`set_pose("kick")` is a no-op and the next update keeps the target and
does not decrease the progress. -/
theorem c5_duplicate_target_ignored_witness :
    setPose "kick" false (updateAC sin0 (1/60) cKickStart) =
      updateAC sin0 (1/60) cKickStart ∧
    (updateAC sin0 (1/60) (updateAC sin0 (1/60) cKickStart)).targetPose =
      (updateAC sin0 (1/60) cKickStart).targetPose := by
  have h := c5_duplicate_target_ignored (updateAC sin0 (1/60) cKickStart) "kick"
    (by decide) (by decide)
  exact ⟨h.1, (h.2 sin0 (1/60) (by norm_num)).2⟩

theorem setPart_setPart {α : Type} (k : String) (f g : α → α) (l : List (String × α)) :
    setPart k f (setPart k g l) = setPart k (fun x => f (g x)) l := by
  unfold setPart
  rw [List.map_map]
  refine List.map_congr_left ?_
  intro p _
  by_cases hpk : p.1 = k
  · simp [Function.comp, hpk]
  · simp [Function.comp, hpk]

/-- `readyTorsoPos`/`readyTorsoRot` read only the pose table. -/
theorem readyTorsoRot_skeleton_irrelevant (c : AnimationController) (sk : SkeletonState) :
    readyTorsoRot { c with skeleton := sk } = readyTorsoRot c := rfl

theorem idleTorsoUpdate_skeleton_parts (w : ℚ) (c : AnimationController) (bx b2 br : ℚ)
    (htorso : (alookup "torso" c.skeleton.parts).isSome = true)
    (hpos : readyTorsoPos c = some (bx, b2))
    (hrot : readyTorsoRot c = some br) :
    (idleTorsoUpdate w c).skeleton.parts =
      setPart "torso"
        (fun b => { b with localPos := (bx, b2 - w), localRot := br })
        c.skeleton.parts := by
  unfold idleTorsoUpdate
  rw [if_pos htorso, hpos]
  have hrot2 : readyTorsoRot
      { c with skeleton := setLocalPos "torso" (bx, b2 - w) c.skeleton } = some br := hrot
  dsimp only
  rw [hrot2]
  dsimp only [setLocalPos, setLocalRot]
  rw [setPart_setPart]

/-- C7: while the controller is settled at rest (progress 1, current and
target both the rest pose, return timer inactive) and the rest pose's
torso entry resolves, `update(dt)` advances only the idle phase and
rewrites only the torso's local transform: local position becomes the rest
torso position with `sin(phase) * amplitude` subtracted from Y (X reset to
the rest value) and local rotation is restored to the rest value; every
other part's entry — local position and rotation included — and the
pose/progress/timer state are untouched. -/
theorem c7_idle_sway_scope (c : AnimationController) (sinFn : ℚ → ℚ) (dt : ℚ)
    (bx b2 br : ℚ)
    (h1 : c.transitionProgress = 1) (h2 : c.currentPose = "ready")
    (h3 : c.targetPose = "ready") (h4 : c.returnTimer ≤ 0)
    (htorso : (alookup "torso" c.skeleton.parts).isSome = true)
    (hpos : readyTorsoPos c = some (bx, b2))
    (hrot : readyTorsoRot c = some br) :
    (updateAC sinFn dt c).idleTime = c.idleTime + c.idleSwaySpeed * dt ∧
    (alookup "torso" (updateAC sinFn dt c).skeleton.parts).map BodyPartState.localPos =
      some (bx, b2 - sinFn (c.idleTime + c.idleSwaySpeed * dt) * c.idleSwayAmount) ∧
    (alookup "torso" (updateAC sinFn dt c).skeleton.parts).map BodyPartState.localRot =
      some br ∧
    (∀ n, n ≠ "torso" →
      alookup n (updateAC sinFn dt c).skeleton.parts = alookup n c.skeleton.parts) ∧
    (updateAC sinFn dt c).transitionProgress = c.transitionProgress ∧
    (updateAC sinFn dt c).currentPose = c.currentPose ∧
    (updateAC sinFn dt c).targetPose = c.targetPose ∧
    (updateAC sinFn dt c).returnTimer = c.returnTimer := by
  have hn1 : ¬ c.transitionProgress < 1 := by rw [h1]; exact lt_irrefl 1
  have hn5 : ¬ 0 < c.returnTimer := not_lt.mpr h4
  simp only [updateAC, if_neg hn1, if_neg hn5, if_pos (And.intro h2 h3)]
  have hparts := idleTorsoUpdate_skeleton_parts
    (sinFn (c.idleTime + c.idleSwaySpeed * dt) * c.idleSwayAmount)
    { c with idleTime := c.idleTime + c.idleSwaySpeed * dt } bx b2 br htorso hpos hrot
  obtain ⟨b0, hb0⟩ := Option.isSome_iff_exists.mp htorso
  refine ⟨by simp, ?_, ?_, ?_, by simp, by simp, by simp, by simp⟩
  · rw [metaRestore_skeleton, hparts, alookup_setPart, if_pos rfl, hb0]
    rfl
  · rw [metaRestore_skeleton, hparts, alookup_setPart, if_pos rfl, hb0]
    rfl
  · intro n hn
    rw [metaRestore_skeleton, hparts, alookup_setPart, if_neg hn]

unseal Rat.mul Rat.inv Rat.add Rat.sub in
/-- C7 witness: one idle frame of the resting demo character advances the
idle phase and leaves the head's entry untouched. -/
theorem c7_idle_sway_scope_witness :
    (updateAC sin0 (1/60) cRest).idleTime = cRest.idleTime + cRest.idleSwaySpeed * (1/60) ∧
    alookup "head" (updateAC sin0 (1/60) cRest).skeleton.parts =
      alookup "head" cRest.skeleton.parts := by
  have h := c7_idle_sway_scope cRest sin0 (1/60) 0 2 0 (by decide) rfl rfl (by decide)
    (by decide) (by decide) (by decide)
  exact ⟨h.1, h.2.2.2.1 "head" (by decide)⟩

unseal Rat.mul Rat.inv Rat.add Rat.sub in
/-- C2: completing a transition promotes the target pose to current and,
for an action pose with auto-return enabled, arms `return_timer` with the
return delay (first conjunct, for any controller state); and concretely,
from the demo character settled at rest, `set_pose("kick")` followed by
eight 1/60-second updates reaches progress 1.0 with `current_pose` "kick"
and `return_timer = 8/60`; eight further 1/60-second updates (totalling
the return delay) drive the timer to 0, invoke `set_pose("ready")`, and
leave `target_pose = "ready"` with a fresh non-immediate transition
(`transition_progress = 0`). -/
theorem c2_auto_return_round_trip :
    (∀ (c : AnimationController) (sinFn : ℚ → ℚ) (dt : ℚ),
      c.transitionProgress < 1 → 0 < c.transitionDuration →
      1 ≤ c.transitionProgress + dt / c.transitionDuration →
      c.autoReturn = true → c.targetPose ∈ c.actionPoses →
      (updateAC sinFn dt c).transitionProgress = 1 ∧
      (updateAC sinFn dt c).currentPose = c.targetPose ∧
      (updateAC sinFn dt c).returnTimer = c.returnDelay) ∧
    ((((updateAC sin0 (1/60))^[8]) cKickStart).transitionProgress = 1 ∧
     (((updateAC sin0 (1/60))^[8]) cKickStart).currentPose = "kick" ∧
     (((updateAC sin0 (1/60))^[8]) cKickStart).returnTimer = 8/60 ∧
     (((updateAC sin0 (1/60))^[16]) cKickStart).targetPose = "ready" ∧
     (((updateAC sin0 (1/60))^[16]) cKickStart).currentPose = "kick" ∧
     (((updateAC sin0 (1/60))^[16]) cKickStart).transitionProgress = 0) := by
  constructor
  · intro c sinFn dt h1 h2 h3 h4 h5
    have hprog : (advanceProgress dt c).transitionProgress = 1 := by
      rw [advanceProgress_transitionProgress, if_neg (not_le.mpr h2)]
      exact min_eq_left h3
    simp only [updateAC, if_pos h1]
    refine ⟨?_, ?_, ?_⟩
    · simp [finishTransition_transitionProgress, hprog]
    · simp [finishTransition_currentPose, hprog]
    · simp [finishTransition_returnTimer, hprog, h4, h5]
  · decide

unseal Rat.mul Rat.inv Rat.add Rat.sub in
/-- C2 witness: a single large update completes the kick transition,
promoting "kick" to current and arming the timer with the return delay. -/
theorem c2_auto_return_round_trip_witness :
    (updateAC sin0 1 cKickStart).currentPose = "kick" ∧
    (updateAC sin0 1 cKickStart).returnTimer = cKickStart.returnDelay := by
  have h := c2_auto_return_round_trip.1 cKickStart sin0 1 (by decide) (by decide)
    (by decide) (by decide) (by decide)
  exact ⟨h.2.1, h.2.2⟩

/-- The one-part skeleton used for the wraparound settling trace. -/
def wrapSkeleton : SkeletonState := setRoot "a" (initBodyPart none) emptySkeleton

/-- A controller halfway through a transition whose snapshots carry a
rotation straddling the ±180° boundary for part "a": start 170, target
-170. -/
def wrapController : AnimationController :=
  { mkController wrapSkeleton with
      currentPose := "p1", targetPose := "p2",
      transitionProgress := 1/2,
      startPoseData := [("a", pe 170 0 0)],
      targetPoseData := [("a", pe (-170) 0 0)],
      autoReturn := false }

unseal Rat.mul Rat.inv Rat.add Rat.sub in
/-- C10: at a transition's final frame the eased parameter is 1 and the
shortest-path blend lands on the target rotation only modulo 360: whenever
the wraparound adjustment fired, the stored value is `target + 360` (diff
below -180) or `target - 360` (diff above 180), not the target itself; in
particular the 170 → -170 transition settles the stored local rotation at
190 = -170 + 360 ≠ -170. -/
theorem c10_settled_rotation_mod_360 :
    (∀ a b : ℚ, (b - a < -180 → lerpAngle a b 1 = b + 360) ∧
                (180 < b - a → lerpAngle a b 1 = b - 360)) ∧
    ((alookup "a" (updateAC sin0 (3/50) wrapController).skeleton.parts).map
        BodyPartState.localRot = some 190 ∧
     (190 : ℚ) = -170 + 360 ∧ (190 : ℚ) ≠ -170) := by
  constructor
  · intro a b
    constructor
    · intro h
      have hng : ¬ (b - a > 180) := by linarith
      simp only [lerpAngle]
      rw [if_neg hng, if_pos h]
      ring
    · intro h
      simp only [lerpAngle]
      rw [if_pos h]
      ring
  · refine ⟨by decide, by norm_num, by norm_num⟩

/-- C10 witness: the wraparound adjustment at the final frame, at a
concrete input crossing the -180 boundary. -/
theorem c10_settled_rotation_mod_360_witness :
    lerpAngle 0 (-181) 1 = -181 + 360 :=
  (c10_settled_rotation_mod_360.1 0 (-181)).1 (by norm_num)
